import Mathlib

/-!
Verification of the `rust-gob` codec (Tsinworks/rust-gob) against its
natural-language specification.

The development shallowly embeds the parts of the source relevant to the
claims under scrutiny:

* `src/src/internal/ser/serialize_struct.rs` — the struct-mode and
  map-interpretation-mode struct serializer (`SerializeStructValue`);
* `src/src/internal/de/value.rs` — `ValueDeserializer` with its eager
  decoder for `map[interface{}]interface{}` values;
* `src/src/internal/de/map_value.rs` — `MapValueDeserializer` and
  `MapMapAccess`;
* `src/crates/serde_gob_derive/src/lib.rs` — the `interpret_as`
  registration override.

Byte streams are modelled as `List Nat` (each element a byte value).
Helper machinery that the repository uses but whose source is not in the
tree (the varint codec in `internal/gob.rs`, `FieldValueDeserializer`,
`StructValueDeserializer`) is modelled from the specification text and
marked as such; decoders and serializers for those pieces appear only as
parameters or spec-modelled definitions.  Host strings read off the wire
are kept as raw byte lists.  Floating-point values are carried as their
IEEE-754 `u64` bit patterns (`Nat`), which is exactly what travels on the
wire; no floating-point arithmetic is performed by any modelled routine.
-/

/-- Error outcomes of the codec.  The source returns `serde` custom string
errors; here each distinct failure site gets its own constructor. -/
inductive GobError : Type where
  /-- reading past the end of the buffer -/
  | truncated : GobError
  /-- a varint longer than 9 bytes -/
  | corrupt : GobError
  /-- `SerializeStructValue::new`: type id not in the schema -/
  | typeNotFound : GobError
  /-- `SerializeStructValue::new`: id resolves to neither struct nor map -/
  | schemaMismatch : GobError
  /-- "neither a singleton nor a struct value" -/
  | notSingleton : GobError
  /-- "expected singleton=0 for map[interface..]interface.. value" -/
  | badSingleton : GobError
  /-- "unsupported map key type in interface map" -/
  | unsupportedKeyType : GobError
  /-- "unsupported map value type in interface map" -/
  | unsupportedValueType : GobError
  deriving DecidableEq, Repr

/-- The value of a big-endian byte list (most significant byte first). -/
def beVal : List Nat → Nat
  | [] => 0
  | b :: bs => b * 256 ^ bs.length + beVal bs

/-- Big-endian bytes of `n`, most significant non-zero byte first
(empty for `0`).  Modelled from the spec, §4.1: the body of a multi-byte
unsigned varint. -/
def beBytes : Nat → List Nat
  | 0 => []
  | n + 1 => beBytes ((n + 1) / 256) ++ [(n + 1) % 256]
decreasing_by exact Nat.div_lt_self (Nat.succ_pos n) (by decide)

/-- `k` little-endian base-256 digits of `n` (least significant first). -/
def leBytes : Nat → Nat → List Nat
  | 0, _ => []
  | k + 1, n => n % 256 :: leBytes k (n / 256)

/-- Reverse the 8 bytes of a `u64` bit pattern.  Modelled from the spec,
§4.1: floats travel byte-reversed on the wire. -/
def byteRev8 (n : Nat) : Nat := beVal (leBytes 8 n)

/-- Modelled from the spec, §4.1 (the varint writer of `internal/gob.rs`
is not in the source tree): values below 128 are a single byte; otherwise
a leading byte `0x100 - byteCount` is followed by the big-endian bytes. -/
def writeUint (n : Nat) : List Nat :=
  if n < 128 then [n] else (256 - (beBytes n).length) :: beBytes n

/-- Zig-zag mapping of a signed integer onto the unsigned varint form
(spec §4.1): non-negative `i` becomes `2*i`, negative `i` becomes
`2*(-i) - 1`. -/
def zigzag (i : Int) : Nat :=
  if 0 ≤ i then (2 * i).toNat else (2 * (-i) - 1).toNat

/-- Inverse of `zigzag`. -/
def unzigzag (u : Nat) : Int :=
  if u % 2 = 0 then (u / 2 : Nat) else -((u / 2 : Nat) : Int) - 1

/-- Modelled from the spec, §4.1: signed varints are the zig-zag image
written as unsigned varints. -/
def writeInt (i : Int) : List Nat := writeUint (zigzag i)

/-- Split off exactly `n` bytes, or fail with `truncated`. -/
def takeExact (n : Nat) (l : List Nat) :
    Except GobError (List Nat × List Nat) :=
  if n ≤ l.length then .ok (l.take n, l.drop n) else .error .truncated

/-- Modelled from the spec, §4.1 (the varint reader of `internal/gob.rs`
is not in the source tree): one byte below 128 is the value itself;
otherwise the byte `b` announces `0x100 - b` big-endian bytes, at most 8
of them (9 wire bytes total). -/
def readUint : List Nat → Except GobError (Nat × List Nat)
  | [] => .error .truncated
  | b :: rest =>
    if b < 128 then .ok (b, rest)
    else
      let cnt := 256 - b
      if 8 < cnt then .error .corrupt
      else
        match takeExact cnt rest with
        | .error e => .error e
        | .ok (bs, rest2) => .ok (beVal bs, rest2)

/-- Modelled from the spec, §4.1: a signed varint is an unsigned varint
followed by the inverse zig-zag mapping. -/
def readInt (l : List Nat) : Except GobError (Int × List Nat) :=
  match readUint l with
  | .error e => .error e
  | .ok (u, rest) => .ok (unzigzag u, rest)

/-- Modelled from the spec, §3: a bool is an unsigned varint, zero
meaning `false`. -/
def readBool (l : List Nat) : Except GobError (Bool × List Nat) :=
  match readUint l with
  | .error e => .error e
  | .ok (u, rest) => .ok (u ≠ 0, rest)

/-- Modelled from the spec, §4.1: a float is an unsigned varint holding
the byte-reversed IEEE-754 bit pattern; the result is the bit pattern. -/
def readFloat (l : List Nat) : Except GobError (Nat × List Nat) :=
  match readUint l with
  | .error e => .error e
  | .ok (u, rest) => .ok (byteRev8 u, rest)

/-- `read_bytes_len` followed by taking that many bytes: a
length-counted byte segment (spec §4.1). -/
def readSeg (l : List Nat) : Except GobError (List Nat × List Nat) :=
  match readUint l with
  | .error e => .error e
  | .ok (n, rest) => takeExact n rest

/-- The bytes of an ASCII string, used for the concrete-type-name
literals that `value.rs` compares against. -/
def asciiBytes (s : String) : List Nat := s.data.map (fun c => c.toNat)

/-- A length-counted byte segment as written (length varint, then the
raw bytes). -/
def writeSeg (bs : List Nat) : List Nat := writeUint bs.length ++ bs

/-! ### Basic facts about the wire codec -/

theorem beVal_append_singleton (l : List Nat) (b : Nat) :
    beVal (l ++ [b]) = 256 * beVal l + b := by
  induction l with
  | nil => simp [beVal]
  | cons x xs ih =>
    simp only [List.cons_append, beVal, List.append_eq, List.length_append,
      List.length_cons, List.length_nil]
    rw [ih]
    ring

theorem beVal_beBytes (n : Nat) : beVal (beBytes n) = n := by
  induction n using Nat.strong_induction_on with
  | _ n ih =>
    match n with
    | 0 => simp [beBytes, beVal]
    | Nat.succ m =>
      rw [beBytes, beVal_append_singleton,
        ih ((m + 1) / 256) (Nat.div_lt_self (Nat.succ_pos m) (by decide))]
      omega

theorem beBytes_length_le (k : Nat) : ∀ n, n < 256 ^ k → (beBytes n).length ≤ k := by
  induction k with
  | zero => intro n h; interval_cases n; simp [beBytes]
  | succ k ih =>
    intro n h
    match n with
    | 0 => simp [beBytes]
    | Nat.succ m =>
      rw [beBytes]
      simp only [List.length_append, List.length_cons, List.length_nil]
      have hdiv : (m + 1) / 256 < 256 ^ k := by
        rw [Nat.div_lt_iff_lt_mul (by decide : 0 < 256)]
        calc m + 1 < 256 ^ (k + 1) := h
          _ = 256 ^ k * 256 := by rw [pow_succ]
      have := ih ((m + 1) / 256) hdiv
      omega

theorem beBytes_length_pos {n : Nat} (h : 0 < n) : 0 < (beBytes n).length := by
  match n with
  | Nat.succ m => rw [beBytes]; simp

theorem takeExact_left (l r : List Nat) : takeExact l.length (l ++ r) = .ok (l, r) := by
  simp [takeExact, List.take_left, List.drop_left]

theorem readUint_writeUint {n : Nat} (h : n < 2 ^ 64) (rest : List Nat) :
    readUint (writeUint n ++ rest) = .ok (n, rest) := by
  by_cases h128 : n < 128
  · simp [writeUint, readUint, h128]
  · have hpos : 0 < n := by omega
    have h8 : n < 256 ^ 8 := by
      have : (256 : Nat) ^ 8 = 2 ^ 64 := by norm_num
      omega
    have hL1 : 0 < (beBytes n).length := beBytes_length_pos hpos
    have hL8 : (beBytes n).length ≤ 8 := beBytes_length_le 8 n h8
    rw [writeUint, if_neg h128]
    show readUint ((256 - (beBytes n).length) :: (beBytes n ++ rest)) = _
    rw [readUint]
    rw [if_neg (by omega)]
    have hcnt : 256 - (256 - (beBytes n).length) = (beBytes n).length := by omega
    rw [hcnt, if_neg (by omega), takeExact_left]
    simp [beVal_beBytes]

theorem unzigzag_zigzag (i : Int) : unzigzag (zigzag i) = i := by
  simp only [zigzag, unzigzag]
  split_ifs <;> omega

theorem zigzag_lt {i : Int} (hlo : -(2 ^ 63) ≤ i) (hhi : i < 2 ^ 63) :
    zigzag i < 2 ^ 64 := by
  simp only [zigzag]
  split_ifs <;> omega

theorem readInt_writeInt {i : Int} (hlo : -(2 ^ 63) ≤ i) (hhi : i < 2 ^ 63)
    (rest : List Nat) : readInt (writeInt i ++ rest) = .ok (i, rest) := by
  rw [writeInt, readInt, readUint_writeUint (zigzag_lt hlo hhi)]
  simp [unzigzag_zigzag]

theorem readSeg_writeSeg {bs : List Nat} (h : bs.length < 2 ^ 64) (rest : List Nat) :
    readSeg (writeSeg bs ++ rest) = .ok (bs, rest) := by
  rw [writeSeg, List.append_assoc, readSeg, readUint_writeUint h]
  exact takeExact_left bs rest

theorem leBytes_length (k n : Nat) : (leBytes k n).length = k := by
  induction k generalizing n with
  | zero => simp [leBytes]
  | succ k ih => simp [leBytes, ih]

theorem leBytes_lt (k n : Nat) : ∀ b ∈ leBytes k n, b < 256 := by
  induction k generalizing n with
  | zero => simp [leBytes]
  | succ k ih =>
    intro b hb
    simp only [leBytes, List.mem_cons] at hb
    rcases hb with h | h
    · omega
    · exact ih (n / 256) b h

theorem beVal_lt (l : List Nat) (h : ∀ b ∈ l, b < 256) :
    beVal l < 256 ^ l.length := by
  induction l with
  | nil => simp [beVal]
  | cons x xs ih =>
    have hx : x < 256 := h x (List.mem_cons_self x xs)
    have hxs := ih (fun b hb => h b (List.mem_cons_of_mem x hb))
    simp only [beVal, List.length_cons, pow_succ]
    calc x * 256 ^ xs.length + beVal xs
        < x * 256 ^ xs.length + 256 ^ xs.length := by omega
      _ = (x + 1) * 256 ^ xs.length := by ring
      _ ≤ 256 * 256 ^ xs.length := by
          exact Nat.mul_le_mul_right _ (by omega)
      _ = 256 ^ xs.length * 256 := by ring

theorem leBytes_beVal (l : List Nat) (h : ∀ b ∈ l, b < 256) :
    leBytes l.length (beVal l) = l.reverse := by
  induction l using List.reverseRecOn with
  | nil => simp [leBytes]
  | append_singleton xs b ih =>
    have hb : b < 256 := h b (by simp)
    have hxs : ∀ x ∈ xs, x < 256 := fun x hx => h x (by simp [hx])
    rw [beVal_append_singleton]
    have hlen : (xs ++ [b]).length = xs.length + 1 := by simp
    rw [hlen]
    show (256 * beVal xs + b) % 256 :: leBytes xs.length ((256 * beVal xs + b) / 256)
        = (xs ++ [b]).reverse
    have hmod : (256 * beVal xs + b) % 256 = b := by
      rw [Nat.mul_add_mod, Nat.mod_eq_of_lt hb]
    have hdiv : (256 * beVal xs + b) / 256 = beVal xs := by
      rw [Nat.mul_add_div (by decide), Nat.div_eq_of_lt hb, Nat.add_zero]
    rw [hmod, hdiv, ih hxs]
    simp

theorem beVal_reverse_leBytes (k : Nat) : ∀ n, beVal ((leBytes k n).reverse) = n % 256 ^ k := by
  induction k with
  | zero => intro n; simp [leBytes, beVal, Nat.mod_one]
  | succ k ih =>
    intro n
    show beVal ((n % 256 :: leBytes k (n / 256)).reverse) = _
    rw [List.reverse_cons, beVal_append_singleton, ih (n / 256)]
    have hq : n / 256 % 256 ^ k < 256 ^ k := Nat.mod_lt _ (Nat.pos_pow_of_pos k (by decide))
    have hsplit : n = 256 ^ (k + 1) * (n / 256 / 256 ^ k)
        + (256 * (n / 256 % 256 ^ k) + n % 256) := by
      have h1 : 256 ^ k * (n / 256 / 256 ^ k) + n / 256 % 256 ^ k = n / 256 :=
        Nat.div_add_mod _ _
      have h2 : 256 * (n / 256) + n % 256 = n := Nat.div_add_mod n 256
      calc n = 256 * (n / 256) + n % 256 := h2.symm
        _ = 256 * (256 ^ k * (n / 256 / 256 ^ k) + n / 256 % 256 ^ k) + n % 256 := by
            rw [h1]
        _ = 256 ^ (k + 1) * (n / 256 / 256 ^ k)
            + (256 * (n / 256 % 256 ^ k) + n % 256) := by ring
    conv_rhs => rw [hsplit]
    rw [Nat.mul_add_mod, Nat.mod_eq_of_lt (by omega : 256 * (n / 256 % 256 ^ k) + n % 256 < 256 ^ (k + 1))]

theorem byteRev8_lt (n : Nat) : byteRev8 n < 2 ^ 64 := by
  have h := beVal_lt (leBytes 8 n) (leBytes_lt 8 n)
  rw [leBytes_length] at h
  have : (256 : Nat) ^ 8 = 2 ^ 64 := by norm_num
  rw [byteRev8]
  omega

theorem byteRev8_byteRev8 {n : Nat} (h : n < 2 ^ 64) : byteRev8 (byteRev8 n) = n := by
  have hlen : (leBytes 8 n).length = 8 := leBytes_length 8 n
  have hbytes : ∀ b ∈ leBytes 8 n, b < 256 := leBytes_lt 8 n
  have h1 : leBytes 8 (beVal (leBytes 8 n)) = (leBytes 8 n).reverse := by
    conv_lhs => rw [← hlen]
    exact leBytes_beVal (leBytes 8 n) hbytes
  rw [byteRev8, byteRev8, h1, beVal_reverse_leBytes]
  have : (256 : Nat) ^ 8 = 2 ^ 64 := by norm_num
  rw [this]
  exact Nat.mod_eq_of_lt h

/-! ### `SerializeStructValue`, struct mode
(src/src/internal/ser/serialize_struct.rs, `StructMode::Struct`)

The abstract host value handed to `serialize_field` is represented by the
bytes its `FieldValueSerializer` run appends to the buffer together with
the `is_empty` flag that run returns: the struct-mode logic in the source
consumes nothing else of it. -/

/-- The `u64` image of an `i64` under Rust's `as u64` cast. -/
def u64ofInt (i : Int) : Nat := (i % (2 ^ 64 : Int)).toNat

/-- The state of `SerializeStructValue` in `StructMode::Struct`: the field
list of the schema struct definition, the output buffer so far, and the
two field-tracking counters. -/
structure StructSerState : Type where
  fields : List (String × Int)
  buf : List Nat
  currentFieldIdx : Nat
  lastSerializedFieldIdx : Int
  deriving DecidableEq, Repr

/-- One `serialize_field` call in struct mode (serialize_struct.rs lines
102–127).  The delta is written speculatively, the field body is appended
(its bytes and `is_empty` flag are the abstraction of the recursive
`FieldValueSerializer` run), and an empty field truncates the buffer back
to its pre-call length.  The source indexes `fields[current_field_idx]`;
an out-of-bounds index (a panic in Rust) is `none`. -/
def serializeFieldStruct (st : StructSerState) (body : List Nat)
    (isEmpty : Bool) : Option StructSerState :=
  if st.currentFieldIdx < st.fields.length then
    let prePos := st.buf.length
    let fieldDelta : Int := (st.currentFieldIdx : Int) - st.lastSerializedFieldIdx
    let buf1 := st.buf ++ writeUint (u64ofInt fieldDelta) ++ body
    if isEmpty then
      some { st with
        buf := buf1.take prePos,
        currentFieldIdx := st.currentFieldIdx + 1 }
    else
      some { st with
        buf := buf1,
        currentFieldIdx := st.currentFieldIdx + 1,
        lastSerializedFieldIdx := (st.currentFieldIdx : Int) }
  else
    none

/-- The fresh struct-mode state built by `SerializeStructValue::new` /
`from_parts`: empty buffer, `current_field_idx = 0`,
`last_serialized_field_idx = -1`. -/
def structSerInit (fields : List (String × Int)) : StructSerState :=
  { fields := fields, buf := [], currentFieldIdx := 0,
    lastSerializedFieldIdx := -1 }

/-- A sequence of `serialize_field` calls, each abstracted to the bytes
its field body appends and its `is_empty` result. -/
def runStructFields : List (List Nat × Bool) → StructSerState → Option StructSerState
  | [], st => some st
  | (body, isEmpty) :: items, st =>
    match serializeFieldStruct st body isEmpty with
    | none => none
    | some st' => runStructFields items st'

/-- `SerializeStructValue::end` in struct mode (lines 176–180): the
terminating `fieldDelta = 0` varint. -/
def structSerEnd (st : StructSerState) : List Nat := st.buf ++ writeUint 0

/-- Specification-side emission: walk the fields with the claimed rule —
a non-empty field at index `cur` emits the unsigned varint
`cur - last` followed by its body and updates `last` to `cur`; an empty
field emits nothing and leaves `last` alone. -/
def specEmitFields : List (List Nat × Bool) → Nat → Int → List Nat
  | [], _, _ => []
  | (_, true) :: items, cur, last => specEmitFields items (cur + 1) last
  | (body, false) :: items, cur, last =>
    writeUint ((cur : Int) - last).toNat ++ body
      ++ specEmitFields items (cur + 1) (cur : Int)

/-- Specification-side list of the deltas actually emitted. -/
def specDeltas : List (List Nat × Bool) → Nat → Int → List Int
  | [], _, _ => []
  | (_, true) :: items, cur, last => specDeltas items (cur + 1) last
  | (_, false) :: items, cur, last =>
    ((cur : Int) - last) :: specDeltas items (cur + 1) (cur : Int)

/-- Cumulative sums of a delta list, starting from (but not including)
`a`. -/
def cumFrom : Int → List Int → List Int
  | _, [] => []
  | a, d :: ds => (a + d) :: cumFrom (a + d) ds

/-- The indices of the non-empty (emitted) fields, counting from `cur`. -/
def emittedIdxs : List (List Nat × Bool) → Nat → List Int
  | [], _ => []
  | (_, true) :: items, cur => emittedIdxs items (cur + 1)
  | (_, false) :: items, cur => (cur : Int) :: emittedIdxs items (cur + 1)

theorem u64ofInt_eq_toNat {i : Int} (h0 : 0 ≤ i) (h : i < 2 ^ 64) :
    u64ofInt i = i.toNat := by
  rw [u64ofInt, Int.emod_eq_of_lt h0 h]

/-- Invariant run of struct-mode `serialize_field` calls: the bytes the
run appends are exactly the specification-side emission, the field list
is untouched, `current_field_idx` advances once per call, and
`last_serialized_field_idx` never decreases and stays strictly below
`current_field_idx`. -/
theorem runStructFields_spec (items : List (List Nat × Bool)) :
    ∀ st st' : StructSerState,
    st.lastSerializedFieldIdx < (st.currentFieldIdx : Int) →
    (st.fields.length : Int) - st.lastSerializedFieldIdx ≤ 2 ^ 64 →
    runStructFields items st = some st' →
    st'.buf = st.buf ++ specEmitFields items st.currentFieldIdx st.lastSerializedFieldIdx
      ∧ st'.fields = st.fields
      ∧ st'.currentFieldIdx = st.currentFieldIdx + items.length
      ∧ st.lastSerializedFieldIdx ≤ st'.lastSerializedFieldIdx
      ∧ st'.lastSerializedFieldIdx < (st'.currentFieldIdx : Int) := by
  induction items with
  | nil =>
    intro st st' h1 h2 hrun
    simp only [runStructFields] at hrun
    cases hrun
    simp [specEmitFields, h1]
  | cons item items ih =>
    intro st st' h1 h2 hrun
    obtain ⟨body, isEmpty⟩ := item
    simp only [runStructFields] at hrun
    rw [serializeFieldStruct] at hrun
    by_cases hidx : st.currentFieldIdx < st.fields.length
    · rw [if_pos hidx] at hrun
      cases isEmpty with
      | true =>
        simp only [if_pos] at hrun
        set st₁ : StructSerState :=
          { st with
            buf := (st.buf ++ writeUint (u64ofInt ((st.currentFieldIdx : Int)
                      - st.lastSerializedFieldIdx)) ++ body).take st.buf.length,
            currentFieldIdx := st.currentFieldIdx + 1 } with hst₁
        have hbuf₁ : st₁.buf = st.buf := by
          show (st.buf ++ writeUint (u64ofInt ((st.currentFieldIdx : Int)
              - st.lastSerializedFieldIdx)) ++ body).take st.buf.length = st.buf
          rw [List.append_assoc]
          exact List.take_left st.buf _
        have h1' : st₁.lastSerializedFieldIdx < (st₁.currentFieldIdx : Int) := by
          simp only [hst₁]
          push_cast
          omega
        have h2' : (st₁.fields.length : Int) - st₁.lastSerializedFieldIdx ≤ 2 ^ 64 := by
          simp only [hst₁]
          exact h2
        obtain ⟨hb, hf, hc, hl, hlast⟩ := ih st₁ st' h1' h2' hrun
        refine ⟨?_, ?_, ?_, ?_, ?_⟩
        · rw [hb, hbuf₁, hst₁]
          simp [specEmitFields]
        · rw [hf, hst₁]
        · rw [hc, hst₁]
          simp
          omega
        · exact hl
        · exact hlast
      | false =>
        simp only [Bool.false_eq_true, if_false] at hrun
        set st₁ : StructSerState :=
          { st with
            buf := st.buf ++ writeUint (u64ofInt ((st.currentFieldIdx : Int)
                      - st.lastSerializedFieldIdx)) ++ body,
            currentFieldIdx := st.currentFieldIdx + 1,
            lastSerializedFieldIdx := (st.currentFieldIdx : Int) } with hst₁
        have h1' : st₁.lastSerializedFieldIdx < (st₁.currentFieldIdx : Int) := by
          simp only [hst₁]
          push_cast
          omega
        have h2' : (st₁.fields.length : Int) - st₁.lastSerializedFieldIdx ≤ 2 ^ 64 := by
          simp only [hst₁]
          have : (st.currentFieldIdx : Int) < (st.fields.length : Int) := by
            exact_mod_cast hidx
          omega
        obtain ⟨hb, hf, hc, hl, hlast⟩ := ih st₁ st' h1' h2' hrun
        have hdelta : u64ofInt ((st.currentFieldIdx : Int) - st.lastSerializedFieldIdx)
            = ((st.currentFieldIdx : Int) - st.lastSerializedFieldIdx).toNat := by
          apply u64ofInt_eq_toNat
          · omega
          · have : (st.currentFieldIdx : Int) < (st.fields.length : Int) := by
              exact_mod_cast hidx
            omega
        refine ⟨?_, ?_, ?_, ?_, ?_⟩
        · rw [hb, hst₁]
          simp only [specEmitFields, hdelta]
          simp [List.append_assoc]
        · rw [hf, hst₁]
        · rw [hc, hst₁]
          simp
          omega
        · have : st.lastSerializedFieldIdx ≤ st₁.lastSerializedFieldIdx := by
            simp only [hst₁]
            omega
          omega
        · exact hlast
    · rw [if_neg hidx] at hrun
      cases hrun

/-- **C1.** For every struct value serialized in struct mode, each
emitted (non-elided) field is preceded by an unsigned varint equal to
`currentFieldIndex - lastSerializedFieldIndex`, where
`lastSerializedFieldIndex` starts at `-1` and is updated to the current
index only after a non-empty field is written, and `end()` terminates
the field sequence by writing unsigned varint `0`.  (The speculative
delta of an elided field is truncated away, so only emitted fields keep
their delta.) -/
theorem struct_mode_emits_field_deltas (fields : List (String × Int))
    (items : List (List Nat × Bool)) (st' : StructSerState)
    (hlen : fields.length + 1 ≤ 2 ^ 64)
    (hrun : runStructFields items (structSerInit fields) = some st') :
    structSerEnd st' = specEmitFields items 0 (-1) ++ writeUint 0 := by
  have h1 : (structSerInit fields).lastSerializedFieldIdx
      < ((structSerInit fields).currentFieldIdx : Int) := by
    simp [structSerInit]
  have h2 : ((structSerInit fields).fields.length : Int)
      - (structSerInit fields).lastSerializedFieldIdx ≤ 2 ^ 64 := by
    simp only [structSerInit]
    have : (fields.length : Int) + 1 ≤ 2 ^ 64 := by exact_mod_cast hlen
    omega
  obtain ⟨hb, _, _, _, _⟩ := runStructFields_spec items _ st' h1 h2 hrun
  rw [structSerEnd, hb]
  simp [structSerInit]

/-- **C1 witness**: a two-field struct whose first field is non-empty and
whose second field is elided. -/
theorem struct_mode_emits_field_deltas_witness :
    structSerEnd (⟨[("a", (6 : Int)), ("b", 1)], [1, 7], 2, 0⟩ : StructSerState)
      = specEmitFields [([7], false), ([1], true)] 0 (-1) ++ writeUint 0 :=
  struct_mode_emits_field_deltas [("a", (6 : Int)), ("b", 1)]
    [([7], false), ([1], true)] _ (by norm_num) (by decide)

/-- **C4.** A struct-mode field whose serialization reports it empty
leaves the output buffer exactly as it was before the call (the
speculatively written delta and body are truncated away) and leaves
`last_serialized_field_idx` unchanged; only `current_field_idx`
advances. -/
theorem struct_mode_empty_field_is_elided (st : StructSerState)
    (body : List Nat) (hidx : st.currentFieldIdx < st.fields.length) :
    serializeFieldStruct st body true
      = some { st with currentFieldIdx := st.currentFieldIdx + 1 } := by
  rw [serializeFieldStruct, if_pos hidx]
  simp only [if_pos]
  congr 1
  have : (st.buf ++ writeUint (u64ofInt ((st.currentFieldIdx : Int)
      - st.lastSerializedFieldIdx)) ++ body).take st.buf.length = st.buf := by
    rw [List.append_assoc]
    exact List.take_left st.buf _
  rw [this]

/-- **C4 witness**: a concrete state with a pending field and an elided
body. -/
theorem struct_mode_empty_field_is_elided_witness :
    serializeFieldStruct (⟨[("a", (6 : Int))], [5], 0, -1⟩ : StructSerState) [9] true
      = some (⟨[("a", (6 : Int))], [5], 1, -1⟩ : StructSerState) :=
  struct_mode_empty_field_is_elided ⟨[("a", (6 : Int))], [5], 0, -1⟩ [9] (by decide)

theorem cumFrom_specDeltas (items : List (List Nat × Bool)) :
    ∀ cur : Nat, ∀ last : Int,
    cumFrom last (specDeltas items cur last) = emittedIdxs items cur := by
  induction items with
  | nil => intro cur last; simp [specDeltas, cumFrom, emittedIdxs]
  | cons item items ih =>
    intro cur last
    obtain ⟨body, isEmpty⟩ := item
    cases isEmpty with
    | true => simp only [specDeltas, emittedIdxs, ih]
    | false =>
      simp only [specDeltas, emittedIdxs, cumFrom]
      have : last + ((cur : Int) - last) = (cur : Int) := by ring
      rw [this, ih]

theorem emittedIdxs_lb (items : List (List Nat × Bool)) :
    ∀ cur : Nat, ∀ x ∈ emittedIdxs items cur, (cur : Int) ≤ x := by
  induction items with
  | nil => intro cur x hx; simp [emittedIdxs] at hx
  | cons item items ih =>
    intro cur x hx
    obtain ⟨body, isEmpty⟩ := item
    cases isEmpty with
    | true =>
      have := ih (cur + 1) x (by simpa [emittedIdxs] using hx)
      push_cast at this ⊢
      omega
    | false =>
      simp only [emittedIdxs, List.mem_cons] at hx
      rcases hx with h | h
      · omega
      · have := ih (cur + 1) x h
        push_cast at this ⊢
        omega

theorem emittedIdxs_chain (items : List (List Nat × Bool)) :
    ∀ cur : Nat, List.Chain' (· < ·) (emittedIdxs items cur) := by
  induction items with
  | nil => intro cur; simp [emittedIdxs]
  | cons item items ih =>
    intro cur
    obtain ⟨body, isEmpty⟩ := item
    cases isEmpty with
    | true => simpa [emittedIdxs] using ih (cur + 1)
    | false =>
      simp only [emittedIdxs]
      rw [List.chain'_cons']
      refine ⟨?_, ih (cur + 1)⟩
      intro y hy
      have hmem : y ∈ emittedIdxs items (cur + 1) := List.mem_of_mem_head? hy
      have := emittedIdxs_lb items (cur + 1) y hmem
      push_cast at this ⊢
      omega

theorem specDeltas_pos (items : List (List Nat × Bool)) :
    ∀ cur : Nat, ∀ last : Int, last < (cur : Int) →
    ∀ d ∈ specDeltas items cur last, 1 ≤ d := by
  induction items with
  | nil => intro cur last _ d hd; simp [specDeltas] at hd
  | cons item items ih =>
    intro cur last hlt d hd
    obtain ⟨body, isEmpty⟩ := item
    cases isEmpty with
    | true =>
      refine ih (cur + 1) last ?_ d (by simpa [specDeltas] using hd)
      push_cast
      omega
    | false =>
      simp only [specDeltas, List.mem_cons] at hd
      rcases hd with h | h
      · omega
      · refine ih (cur + 1) (cur : Int) ?_ d h
        push_cast
        omega

theorem emittedIdxs_lt_of_run (items : List (List Nat × Bool)) :
    ∀ st st' : StructSerState, runStructFields items st = some st' →
    ∀ x ∈ emittedIdxs items st.currentFieldIdx, x < (st.fields.length : Int) := by
  induction items with
  | nil => intro st st' _ x hx; simp [emittedIdxs] at hx
  | cons item items ih =>
    intro st st' hrun x hx
    obtain ⟨body, isEmpty⟩ := item
    simp only [runStructFields] at hrun
    rw [serializeFieldStruct] at hrun
    by_cases hidx : st.currentFieldIdx < st.fields.length
    · rw [if_pos hidx] at hrun
      cases isEmpty with
      | true =>
        simp only [if_pos] at hrun
        have hx' : x ∈ emittedIdxs items (st.currentFieldIdx + 1) := by
          simpa [emittedIdxs] using hx
        have := ih _ st' hrun x hx'
        simpa using this
      | false =>
        simp only [Bool.false_eq_true, if_false] at hrun
        simp only [emittedIdxs, List.mem_cons] at hx
        rcases hx with h | h
        · rw [h]
          exact_mod_cast hidx
        · have := ih _ st' hrun x (by simpa using h)
          simpa using this
    · rw [if_neg hidx] at hrun
      cases hrun

/-- **C5.** Across any (successful) sequence of `serialize_field` calls
on a struct-mode serializer, the deltas actually emitted — the
specification-side delta trace of the run, which
`struct_mode_emits_field_deltas` shows is exactly what lands in the
buffer — are each at least `1`, and their cumulative sums starting from
`-1` form a strictly increasing sequence of field indices, each below
the struct definition's field count. -/
theorem struct_mode_deltas_monotone (fields : List (String × Int))
    (items : List (List Nat × Bool)) (st' : StructSerState)
    (hrun : runStructFields items (structSerInit fields) = some st') :
    (∀ d ∈ specDeltas items 0 (-1), 1 ≤ d)
    ∧ List.Chain' (· < ·) (cumFrom (-1) (specDeltas items 0 (-1)))
    ∧ (∀ x ∈ cumFrom (-1) (specDeltas items 0 (-1)), x < (fields.length : Int)) := by
  refine ⟨specDeltas_pos items 0 (-1) (by norm_num), ?_, ?_⟩
  · rw [cumFrom_specDeltas]
    exact emittedIdxs_chain items 0
  · rw [cumFrom_specDeltas]
    intro x hx
    have := emittedIdxs_lt_of_run items (structSerInit fields) st' hrun x
    simp only [structSerInit] at this
    exact this hx

/-- **C5 witness**: a successful three-field run (emit, skip, emit). -/
theorem struct_mode_deltas_monotone_witness :
    (∀ d ∈ specDeltas [([7], false), ([], true), ([9], false)] 0 (-1), 1 ≤ d)
    ∧ List.Chain' (· < ·)
        (cumFrom (-1) (specDeltas [([7], false), ([], true), ([9], false)] 0 (-1)))
    ∧ (∀ x ∈ cumFrom (-1) (specDeltas [([7], false), ([], true), ([9], false)] 0 (-1)),
        x < (([("a", (2 : Int)), ("b", 2), ("c", 2)] : List (String × Int)).length : Int)) :=
  struct_mode_deltas_monotone [("a", (2 : Int)), ("b", 2), ("c", 2)]
    [([7], false), ([], true), ([9], false)]
    ⟨[("a", (2 : Int)), ("b", 2), ("c", 2)], [1, 7, 2, 9], 3, 2⟩ (by decide)

/-! ### `SerializeStructValue`, map-interpretation mode
(src/src/internal/ser/serialize_struct.rs, `StructMode::Map`), plus the
`interpret_as` derive override
(src/crates/serde_gob_derive/src/lib.rs). -/

/-- The shape of a schema definition, as far as `SerializeStructValue::new`
and `ValueDeserializer` inspect it: a struct with its field list, a map
with its key/element type ids, or anything else. -/
inductive WireTypeDef : Type where
  | structT (fields : List (String × Int)) : WireTypeDef
  | mapT (key elem : Int) : WireTypeDef
  | otherT : WireTypeDef
  deriving DecidableEq, Repr

/-- The state of `SerializeStructValue` in `StructMode::Map`: output
buffer, the declared entry count `len` captured at construction, the
map's key and element type ids, and the `needs_init` flag. -/
structure MapSerState : Type where
  buf : List Nat
  len : Nat
  keyType : Int
  elemType : Int
  needsInit : Bool
  deriving DecidableEq, Repr

/-- The map-mode state built by `SerializeStructValue::new` for a map
definition. -/
def mkMapSerState (len : Nat) (key elem : Int) : MapSerState :=
  { buf := [], len := len, keyType := key, elemType := elem, needsInit := true }

/-- The two modes of `SerializeStructValue`. -/
inductive SerMode : Type where
  | structMode (st : StructSerState) : SerMode
  | mapMode (st : MapSerState) : SerMode
  deriving DecidableEq, Repr

/-- `SerializeStructValue::new` (serialize_struct.rs lines 33–73):
look the type id up in the schema; a struct definition yields struct
mode over its fields, a map definition yields map mode with the map's
key/element ids and `needs_init = true`; a missing id is "type not
found" and any other definition is "schema mismatch, not a struct or
map". -/
def serializeStructValueNew (lookup : Int → Option WireTypeDef)
    (tid : Int) (len : Nat) : Except GobError SerMode :=
  match lookup tid with
  | none => .error .typeNotFound
  | some (.structT fields) => .ok (.structMode (structSerInit fields))
  | some (.mapT key elem) => .ok (.mapMode (mkMapSerState len key elem))
  | some .otherT => .error .schemaMismatch

/-- One `serialize_field` call in map mode (serialize_struct.rs lines
128–152): on the first call the singleton marker `0` and the declared
entry count are written; every call then appends the field name
serialized under the map's key type id (`kser`) followed by the field
value serialized under the map's element type id (`vser`).  `kser` and
`vser` abstract the recursive `FieldValueSerializer` runs. -/
def mapSerializeField {α : Type} (kser : Int → String → List Nat)
    (vser : Int → α → List Nat) (st : MapSerState) (key : String)
    (value : α) : MapSerState :=
  let st1 := if st.needsInit then
      { st with
        buf := st.buf ++ writeUint 0 ++ writeUint st.len,
        needsInit := false }
    else st
  { st1 with
    buf := st1.buf ++ kser st1.keyType key ++ vser st1.elemType value }

/-- `skip_field` in map mode (serialize_struct.rs lines 164–172): the
source returns `Ok(())` and touches nothing. -/
def mapSkipField (st : MapSerState) : MapSerState := st

/-- `SerializeStructValue::end` in map mode (lines 181–185): only a
zero-length map writes anything (a single unsigned varint `0`). -/
def mapSerEnd (st : MapSerState) : List Nat :=
  if st.len = 0 then st.buf ++ writeUint 0 else st.buf

/-- One `SerializeStruct` call against a map-mode serializer: a derived
`Serialize` impl either serializes a named field or skips it. -/
inductive MapFieldOp (α : Type) : Type where
  | serF (key : String) (value : α) : MapFieldOp α
  | skipF (key : String) : MapFieldOp α
  deriving DecidableEq, Repr

/-- A sequence of map-mode `serialize_field` / `skip_field` calls. -/
def runMapOps {α : Type} (kser : Int → String → List Nat)
    (vser : Int → α → List Nat) : List (MapFieldOp α) → MapSerState → MapSerState
  | [], st => st
  | .serF key value :: ops, st =>
    runMapOps kser vser ops (mapSerializeField kser vser st key value)
  | .skipF _ :: ops, st => runMapOps kser vser ops (mapSkipField st)

/-- Number of `serialize_field` (non-skipped) calls. -/
def countSer {α : Type} : List (MapFieldOp α) → Nat
  | [] => 0
  | .serF _ _ :: ops => countSer ops + 1
  | .skipF _ :: ops => countSer ops

/-- Whether the op list contains at least one non-skipped field. -/
def hasSer {α : Type} : List (MapFieldOp α) → Bool
  | [] => false
  | .serF _ _ :: _ => true
  | .skipF _ :: ops => hasSer ops

/-- The per-entry byte chunks the run appends after the initial marker
and count: one `key ++ value` chunk per non-skipped field. -/
def entryChunks {α : Type} (kser : Int → String → List Nat)
    (vser : Int → α → List Nat) (keyType elemType : Int) :
    List (MapFieldOp α) → List (List Nat)
  | [] => []
  | .serF key value :: ops =>
    (kser keyType key ++ vser elemType value)
      :: entryChunks kser vser keyType elemType ops
  | .skipF _ :: ops => entryChunks kser vser keyType elemType ops

/-- The `interpret_as` configuration flag recognised by the derive
macro. -/
def interpretAsMapInterface : String :=
  "map[interface\x7b\x7d]interface\x7b\x7d"

/-- `TypeId::INTERFACE`.  Modelled from the spec, §4.3 (the `TypeId`
constants of `serde_gob/types` are not in the source tree):
interface = 8. -/
def interfaceTypeId : Int := 8

/-- What `GobSerialize::schema_register` will register for the host
type. -/
inductive DeriveRegistration : Type where
  | mapRegistration (key elem : Int) : DeriveRegistration
  | structRegistration : DeriveRegistration
  | enumRegistration : DeriveRegistration
  deriving DecidableEq, Repr

/-- The shape of the host container the derive macro sees. -/
inductive HostAst : Type where
  | structAst : HostAst
  | enumAst : HostAst
  deriving DecidableEq, Repr

/-- `derive_gob_serialize` (serde_gob_derive/src/lib.rs lines 22–48):
with `interpret_as = "map[interface{}]interface{}"` the generated
`schema_register` registers a map from `INTERFACE` to `INTERFACE`
(any other `interpret_as` value panics, modelled as an error); without
the flag the usual struct/enum registration code is generated. -/
def deriveGobSerializeSchema (interpretAs : Option String) (data : HostAst) :
    Except String DeriveRegistration :=
  match interpretAs with
  | some s =>
    if s = interpretAsMapInterface then
      .ok (.mapRegistration interfaceTypeId interfaceTypeId)
    else
      .error "Unsupported interpret_as value"
  | none =>
    match data with
    | .structAst => .ok .structRegistration
    | .enumAst => .ok .enumRegistration

theorem runMapOps_noinit {α : Type} (kser : Int → String → List Nat)
    (vser : Int → α → List Nat) (ops : List (MapFieldOp α)) :
    ∀ st : MapSerState, st.needsInit = false →
    runMapOps kser vser ops st
      = { st with
          buf := st.buf ++ (entryChunks kser vser st.keyType st.elemType ops).flatten } := by
  induction ops with
  | nil => intro st h; simp [runMapOps, entryChunks]
  | cons op ops ih =>
    intro st h
    cases op with
    | serF key value =>
      rw [runMapOps]
      have hfield : mapSerializeField kser vser st key value
          = { st with
              buf := st.buf ++ kser st.keyType key ++ vser st.elemType value } := by
        rw [mapSerializeField]
        simp [h]
      have hih := ih { st with
          buf := st.buf ++ kser st.keyType key ++ vser st.elemType value } h
      rw [hfield, hih]
      simp [entryChunks, List.append_assoc]
    | skipF key =>
      rw [runMapOps, mapSkipField, ih st h]
      simp [entryChunks]

theorem runMapOps_init {α : Type} (kser : Int → String → List Nat)
    (vser : Int → α → List Nat) (ops : List (MapFieldOp α)) :
    ∀ st : MapSerState, st.needsInit = true →
    runMapOps kser vser ops st
      = if hasSer ops then
          { st with
            buf := st.buf ++ writeUint 0 ++ writeUint st.len
              ++ (entryChunks kser vser st.keyType st.elemType ops).flatten,
            needsInit := false }
        else st := by
  induction ops with
  | nil => intro st h; simp [runMapOps, hasSer]
  | cons op ops ih =>
    intro st h
    cases op with
    | serF key value =>
      rw [runMapOps]
      have hfield : mapSerializeField kser vser st key value
          = { st with
              buf := st.buf ++ writeUint 0 ++ writeUint st.len
                ++ kser st.keyType key ++ vser st.elemType value,
              needsInit := false } := by
        rw [mapSerializeField]
        simp [h, List.append_assoc]
      rw [hfield, runMapOps_noinit kser vser ops _ (by rfl)]
      simp [hasSer, entryChunks, List.append_assoc]
    | skipF key =>
      rw [runMapOps, mapSkipField, ih st h]
      simp only [hasSer, entryChunks]

theorem countSer_le_length {α : Type} (ops : List (MapFieldOp α)) :
    countSer ops ≤ ops.length := by
  induction ops with
  | nil => simp [countSer]
  | cons op ops ih =>
    cases op with
    | serF key value => simp [countSer]; omega
    | skipF key => simp [countSer]; omega

/-- **C3.** A host struct carrying
`interpret_as = "map[interface{}]interface{}"` is registered by
`schema_register` as a map from `INTERFACE` to `INTERFACE` instead of a
struct definition; `SerializeStructValue::new` then enters map mode with
the map's key/element type ids, and at encode time each field becomes
one map entry: the field name serialized under the map's key type id,
then the field value serialized under the map's element type id (the
first call additionally writes the singleton marker and entry count). -/
theorem derive_interpret_as_map_interface :
    (∀ data : HostAst,
      deriveGobSerializeSchema (some interpretAsMapInterface) data
        = .ok (.mapRegistration interfaceTypeId interfaceTypeId))
    ∧ (∀ (lookup : Int → Option WireTypeDef) (tid : Int) (len : Nat) (key elem : Int),
        lookup tid = some (.mapT key elem) →
        serializeStructValueNew lookup tid len
          = .ok (.mapMode (mkMapSerState len key elem)))
    ∧ (∀ (α : Type) (kser : Int → String → List Nat) (vser : Int → α → List Nat)
        (st : MapSerState) (key : String) (value : α),
        st.needsInit = true →
        mapSerializeField kser vser st key value
          = { st with
              buf := st.buf ++ writeUint 0 ++ writeUint st.len
                ++ kser st.keyType key ++ vser st.elemType value,
              needsInit := false })
    ∧ (∀ (α : Type) (kser : Int → String → List Nat) (vser : Int → α → List Nat)
        (st : MapSerState) (key : String) (value : α),
        st.needsInit = false →
        mapSerializeField kser vser st key value
          = { st with
              buf := st.buf ++ kser st.keyType key ++ vser st.elemType value }) := by
  refine ⟨?_, ?_, ?_, ?_⟩
  · intro data
    simp [deriveGobSerializeSchema]
  · intro lookup tid len key elem h
    rw [serializeStructValueNew, h]
  · intro α kser vser st key value h
    rw [mapSerializeField]
    simp [h, List.append_assoc]
  · intro α kser vser st key value h
    rw [mapSerializeField]
    simp [h]

/-- **C3 witness**: the registration override with the flag set, a map
lookup at id `-65`, and map-mode field calls on fresh and initialised
states. -/
theorem derive_interpret_as_map_interface_witness :
    deriveGobSerializeSchema (some interpretAsMapInterface) HostAst.structAst
        = .ok (.mapRegistration interfaceTypeId interfaceTypeId)
    ∧ serializeStructValueNew
        (fun t => if t = -65 then some (.mapT 8 8) else none) (-65) 5
        = .ok (.mapMode (mkMapSerState 5 8 8))
    ∧ mapSerializeField (fun _ s => asciiBytes s) (fun _ n => [n])
        (⟨[], 2, 8, 8, true⟩ : MapSerState) "uid" (7 : Nat)
        = { (⟨[], 2, 8, 8, true⟩ : MapSerState) with
            buf := ([] : List Nat) ++ writeUint 0 ++ writeUint 2
              ++ asciiBytes "uid" ++ [7],
            needsInit := false }
    ∧ mapSerializeField (fun _ s => asciiBytes s) (fun _ n => [n])
        (⟨[0, 2], 2, 8, 8, false⟩ : MapSerState) "uname" (9 : Nat)
        = { (⟨[0, 2], 2, 8, 8, false⟩ : MapSerState) with
            buf := [0, 2] ++ asciiBytes "uname" ++ [9] } :=
  ⟨derive_interpret_as_map_interface.1 HostAst.structAst,
   derive_interpret_as_map_interface.2.1
     (fun t => if t = -65 then some (.mapT 8 8) else none) (-65) 5 8 8 (by decide),
   derive_interpret_as_map_interface.2.2.1 Nat (fun _ s => asciiBytes s)
     (fun _ n => [n]) ⟨[], 2, 8, 8, true⟩ "uid" 7 (by decide),
   derive_interpret_as_map_interface.2.2.2 Nat (fun _ s => asciiBytes s)
     (fun _ n => [n]) ⟨[0, 2], 2, 8, 8, false⟩ "uname" 9 (by decide)⟩

/-- **C8.** With a struct serialized in map-interpretation mode,
`skip_field` is a no-op: it returns `Ok` with the state (buffer,
captured entry count, flags) untouched.  The declared entry count
written by the run is the `len` captured at construction, while the
entries actually emitted are only the non-skipped fields; hence any
skipped field leaves the declared count strictly above the number of
entries emitted. -/
theorem map_mode_skip_field_is_noop :
    (∀ st : MapSerState, mapSkipField st = st)
    ∧ (∀ (α : Type) (kser : Int → String → List Nat) (vser : Int → α → List Nat)
        (ops : List (MapFieldOp α)) (key elem : Int),
        hasSer ops = true →
        runMapOps kser vser ops (mkMapSerState ops.length key elem)
          = { mkMapSerState ops.length key elem with
              buf := writeUint 0 ++ writeUint ops.length
                ++ (entryChunks kser vser key elem ops).flatten,
              needsInit := false })
    ∧ (∀ (α : Type) (kser : Int → String → List Nat) (vser : Int → α → List Nat)
        (key elem : Int) (ops : List (MapFieldOp α)),
        (entryChunks kser vser key elem ops).length = countSer ops)
    ∧ (∀ (α : Type) (ops : List (MapFieldOp α)) (s : String),
        MapFieldOp.skipF s ∈ ops → countSer ops < ops.length) := by
  refine ⟨fun st => rfl, ?_, ?_, ?_⟩
  · intro α kser vser ops key elem h
    rw [runMapOps_init kser vser ops _ (by rfl), if_pos h]
    simp [mkMapSerState, List.append_assoc]
  · intro α kser vser key elem ops
    induction ops with
    | nil => simp [entryChunks, countSer]
    | cons op ops ih =>
      cases op with
      | serF k v => simp [entryChunks, countSer, ih]
      | skipF k => simp [entryChunks, countSer, ih]
  · intro α ops s hmem
    induction ops with
    | nil => simp at hmem
    | cons op ops ih =>
      cases op with
      | serF k v =>
        have hmem' : MapFieldOp.skipF s ∈ ops := by
          rcases List.mem_cons.mp hmem with h | h
          · cases h
          · exact h
        have := ih hmem'
        simp only [countSer, List.length_cons]
        omega
      | skipF k =>
        have := countSer_le_length ops
        simp only [countSer, List.length_cons]
        omega

/-- **C8 witness**: a run with one serialized and one skipped field. -/
theorem map_mode_skip_field_is_noop_witness :
    mapSkipField (⟨[3], 2, 8, 8, false⟩ : MapSerState) = ⟨[3], 2, 8, 8, false⟩
    ∧ runMapOps (fun _ s => asciiBytes s) (fun _ n => [n])
        [MapFieldOp.serF "uid" (7 : Nat), MapFieldOp.skipF "email"]
        (mkMapSerState 2 8 8)
        = { mkMapSerState 2 8 8 with
            buf := writeUint 0 ++ writeUint 2
              ++ (entryChunks (fun _ s => asciiBytes s) (fun _ n => [n]) 8 8
                    [MapFieldOp.serF "uid" (7 : Nat), MapFieldOp.skipF "email"]).flatten,
            needsInit := false }
    ∧ (entryChunks (fun _ s => asciiBytes s) (fun _ n => [n]) 8 8
        [MapFieldOp.serF "uid" (7 : Nat), MapFieldOp.skipF "email"]).length
        = countSer [MapFieldOp.serF "uid" (7 : Nat), MapFieldOp.skipF "email"]
    ∧ countSer [MapFieldOp.serF "uid" (7 : Nat), MapFieldOp.skipF "email"]
        < ([MapFieldOp.serF "uid" (7 : Nat), MapFieldOp.skipF "email"]).length :=
  ⟨map_mode_skip_field_is_noop.1 ⟨[3], 2, 8, 8, false⟩,
   map_mode_skip_field_is_noop.2.1 Nat (fun _ s => asciiBytes s) (fun _ n => [n])
     [MapFieldOp.serF "uid" 7, MapFieldOp.skipF "email"] 8 8 (by decide),
   map_mode_skip_field_is_noop.2.2.1 Nat (fun _ s => asciiBytes s) (fun _ n => [n])
     8 8 [MapFieldOp.serF "uid" 7, MapFieldOp.skipF "email"],
   map_mode_skip_field_is_noop.2.2.2 Nat
     [MapFieldOp.serF "uid" 7, MapFieldOp.skipF "email"] "email" (by simp)⟩

/-- **C9.** In map-interpretation mode the singleton marker `0` and the
entry count are written only by the first `serialize_field` call: a call
on an initialised state appends nothing but the entry, and every call
clears `needs_init`.  Consequently a struct with declared length `0` and
no `serialize_field` calls produces as its value body exactly the one
unsigned varint `0` written by `end()` (no singleton marker precedes
it), while for declared length at least `1` `end()` appends nothing. -/
theorem map_mode_first_call_init_and_end :
    (∀ (α : Type) (kser : Int → String → List Nat) (vser : Int → α → List Nat)
        (key elem : Int),
        mapSerEnd (runMapOps kser vser ([] : List (MapFieldOp α))
          (mkMapSerState 0 key elem)) = [0])
    ∧ (∀ st : MapSerState, 1 ≤ st.len → mapSerEnd st = st.buf)
    ∧ (∀ (α : Type) (kser : Int → String → List Nat) (vser : Int → α → List Nat)
        (st : MapSerState) (key : String) (value : α),
        st.needsInit = false →
        mapSerializeField kser vser st key value
          = { st with
              buf := st.buf ++ kser st.keyType key ++ vser st.elemType value })
    ∧ (∀ (α : Type) (kser : Int → String → List Nat) (vser : Int → α → List Nat)
        (st : MapSerState) (key : String) (value : α),
        (mapSerializeField kser vser st key value).needsInit = false) := by
  refine ⟨?_, ?_, ?_, ?_⟩
  · intro α kser vser key elem
    simp [runMapOps, mkMapSerState, mapSerEnd, writeUint]
  · intro st h
    rw [mapSerEnd, if_neg (by omega)]
  · intro α kser vser st key value h
    rw [mapSerializeField]
    simp [h]
  · intro α kser vser st key value
    rw [mapSerializeField]
    by_cases h : st.needsInit <;> simp [h]

/-- **C9 witness**: the empty map body, a non-empty map's `end()`, and a
second `serialize_field` call on an initialised state. -/
theorem map_mode_first_call_init_and_end_witness :
    mapSerEnd (runMapOps (fun _ s => asciiBytes s) (fun _ n => [n])
        ([] : List (MapFieldOp Nat)) (mkMapSerState 0 8 8)) = [0]
    ∧ mapSerEnd (⟨[0, 1, 5], 1, 8, 8, false⟩ : MapSerState) = [0, 1, 5]
    ∧ mapSerializeField (fun _ s => asciiBytes s) (fun _ n => [n])
        (⟨[0, 2], 2, 8, 8, false⟩ : MapSerState) "uid" (7 : Nat)
        = { (⟨[0, 2], 2, 8, 8, false⟩ : MapSerState) with
            buf := [0, 2] ++ asciiBytes "uid" ++ [7] }
    ∧ (mapSerializeField (fun _ s => asciiBytes s) (fun _ n => [n])
        (⟨[], 2, 8, 8, true⟩ : MapSerState) "uid" (7 : Nat)).needsInit = false :=
  ⟨map_mode_first_call_init_and_end.1 Nat (fun _ s => asciiBytes s) (fun _ n => [n]) 8 8,
   map_mode_first_call_init_and_end.2.1 ⟨[0, 1, 5], 1, 8, 8, false⟩ (by decide),
   map_mode_first_call_init_and_end.2.2.1 Nat (fun _ s => asciiBytes s)
     (fun _ n => [n]) ⟨[0, 2], 2, 8, 8, false⟩ "uid" 7 (by decide),
   map_mode_first_call_init_and_end.2.2.2 Nat (fun _ s => asciiBytes s)
     (fun _ n => [n]) ⟨[], 2, 8, 8, true⟩ "uid" 7⟩

/-! ### The eager `map[interface{}]interface{}` decoder
(src/src/internal/de/value.rs, `ValueDeserializer::deserialize_struct`,
lines 122–246).

Wire strings are kept as raw byte lists; the source additionally decodes
them as UTF-8 (failing on invalid UTF-8 — also an error here, reached
through the type-name comparison instead). -/

/-- The `SimpleValue` enum of value.rs: the typed scalar buffered per
map entry. -/
inductive SimpleValue : Type where
  | strV (bs : List Nat) : SimpleValue
  | i64V (i : Int) : SimpleValue
  | u64V (n : Nat) : SimpleValue
  | boolV (b : Bool) : SimpleValue
  | f64V (bits : Nat) : SimpleValue
  deriving DecidableEq, Repr

/-- One entry of the eager decode loop (value.rs lines 158–231): the
key's concrete type name, id, byte count and inner singleton; the key
body (required to be of concrete type `"string"`); then the value's
concrete type name, id, byte count and inner singleton, and the value
body decoded according to the value's concrete type name. -/
def decodeInterfaceEntry (input : List Nat) :
    Except GobError ((List Nat × SimpleValue) × List Nat) :=
  match readSeg input with
  | .error e => .error e
  | .ok (keyTy, r1) =>
    match readInt r1 with
    | .error e => .error e
    | .ok (_keyTyId, r2) =>
      match readUint r2 with
      | .error e => .error e
      | .ok (_byteCount, r3) =>
        match readUint r3 with
        | .error e => .error e
        | .ok (_singleton, r4) =>
          if keyTy = asciiBytes "string" then
            match readSeg r4 with
            | .error e => .error e
            | .ok (key, r5) =>
              match readSeg r5 with
              | .error e => .error e
              | .ok (valTy, r6) =>
                match readInt r6 with
                | .error e => .error e
                | .ok (_valTyId, r7) =>
                  match readUint r7 with
                  | .error e => .error e
                  | .ok (_valByteCount, r8) =>
                    match readUint r8 with
                    | .error e => .error e
                    | .ok (_valSingleton, r9) =>
                      if valTy = asciiBytes "string" then
                        match readSeg r9 with
                        | .error e => .error e
                        | .ok (v, r10) => .ok ((key, .strV v), r10)
                      else if valTy = asciiBytes "int64" then
                        match readInt r9 with
                        | .error e => .error e
                        | .ok (v, r10) => .ok ((key, .i64V v), r10)
                      else if valTy = asciiBytes "uint64" then
                        match readUint r9 with
                        | .error e => .error e
                        | .ok (v, r10) => .ok ((key, .u64V v), r10)
                      else if valTy = asciiBytes "bool" then
                        match readBool r9 with
                        | .error e => .error e
                        | .ok (v, r10) => .ok ((key, .boolV v), r10)
                      else if valTy = asciiBytes "float64" then
                        match readFloat r9 with
                        | .error e => .error e
                        | .ok (v, r10) => .ok ((key, .f64V v), r10)
                      else .error .unsupportedValueType
          else .error .unsupportedKeyType

/-- The eager decode loop: `len` entries pushed into the buffered
vector. -/
def decodeInterfaceEntries : Nat → List Nat →
    Except GobError (List (List Nat × SimpleValue) × List Nat)
  | 0, input => .ok ([], input)
  | n + 1, input =>
    match decodeInterfaceEntry input with
    | .error e => .error e
    | .ok (entry, r) =>
      match decodeInterfaceEntries n r with
      | .error e => .error e
      | .ok (entries, r2) => .ok (entry :: entries, r2)

/-- The eager `map[interface{}]interface{}` path of
`deserialize_struct` (value.rs lines 142–235): read the singleton
marker (error if nonzero), read the entry count, buffer that many
entries.  The buffered entries are what the source replays to the
visitor through `MapDeserializer`. -/
def deserializeInterfaceMap (input : List Nat) :
    Except GobError (List (List Nat × SimpleValue) × List Nat) :=
  match readUint input with
  | .error e => .error e
  | .ok (singleton, r) =>
    if singleton ≠ 0 then .error .badSingleton
    else
      match readUint r with
      | .error e => .error e
      | .ok (len, r2) => decodeInterfaceEntries len r2

/-- `ValueDeserializer::deserialize_struct` (value.rs lines 122–246):
a struct definition goes to the struct decoder; a map definition whose
element and key are both `INTERFACE` takes the eager path above,
replaying the buffered entries to the visitor (`visitMap`); everything
else reads one unsigned varint, errors if it is nonzero, and hands the
rest to `FieldValueDeserializer::deserialize_struct` (`fieldDec`).
`structDec` and `fieldDec` stand for `StructValueDeserializer` and
`FieldValueDeserializer`, whose sources are not in the tree. -/
def valueDeserializeStruct {R : Type}
    (structDec : List (String × Int) → List Nat → Except GobError (R × List Nat))
    (fieldDec : Int → List Nat → Except GobError (R × List Nat))
    (visitMap : List (List Nat × SimpleValue) → R)
    (lookup : Int → Option WireTypeDef) (tid : Int) (input : List Nat) :
    Except GobError (R × List Nat) :=
  match lookup tid with
  | some (.structT fields) => structDec fields input
  | wt =>
    let isMapInterface : Bool :=
      match wt with
      | some (.mapT key elem) =>
        elem == interfaceTypeId && key == interfaceTypeId
      | _ => false
    if isMapInterface then
      match deserializeInterfaceMap input with
      | .error e => .error e
      | .ok (entries, r) => .ok (visitMap entries, r)
    else
      match readUint input with
      | .error e => .error e
      | .ok (len, r) =>
        if len ≠ 0 then .error .notSingleton
        else fieldDec tid r

/-! ### Reference encoding of interface-map entries (spec §3/§4.5:
the *Interface* wire construct), used to state decoder claims. -/

/-- A typed scalar payload for a well-formed interface-map entry; the
constructor fixes the concrete type name on the wire. -/
inductive ScalarPayload : Type where
  | strP (bs : List Nat) : ScalarPayload
  | i64P (i : Int) : ScalarPayload
  | u64P (n : Nat) : ScalarPayload
  | boolP (b : Bool) : ScalarPayload
  | f64P (bits : Nat) : ScalarPayload
  deriving DecidableEq, Repr

/-- The concrete gob type name announcing the payload on the wire. -/
def payloadTypeName : ScalarPayload → List Nat
  | .strP _ => asciiBytes "string"
  | .i64P _ => asciiBytes "int64"
  | .u64P _ => asciiBytes "uint64"
  | .boolP _ => asciiBytes "bool"
  | .f64P _ => asciiBytes "float64"

/-- A bool on the wire (spec §4.5: zero default `false`, encoded as an
unsigned varint). -/
def writeBool (b : Bool) : List Nat := writeUint (if b then 1 else 0)

/-- A float on the wire (spec §4.1): the byte-reversed IEEE-754 bit
pattern as an unsigned varint. -/
def writeFloatBits (bits : Nat) : List Nat := writeUint (byteRev8 bits)

/-- The payload body as encoded on the wire. -/
def encodePayload : ScalarPayload → List Nat
  | .strP bs => writeSeg bs
  | .i64P i => writeInt i
  | .u64P n => writeUint n
  | .boolP b => writeBool b
  | .f64P bits => writeFloatBits bits

/-- The `SimpleValue` the decoder produces for the payload. -/
def scalarOf : ScalarPayload → SimpleValue
  | .strP bs => .strV bs
  | .i64P i => .i64V i
  | .u64P n => .u64V n
  | .boolP b => .boolV b
  | .f64P bits => .f64V bits

/-- Machine-width bounds making the payload expressible in 64-bit wire
varints. -/
def wfPayload : ScalarPayload → Prop
  | .strP bs => bs.length < 2 ^ 64
  | .i64P i => -(2 ^ 63) ≤ i ∧ i < 2 ^ 63
  | .u64P n => n < 2 ^ 64
  | .boolP _ => True
  | .f64P bits => bits < 2 ^ 64

/-- One interface-map entry as laid out on the wire.  `keyTyId`,
`keyByteCount`, `keySingleton`, `valTyId`, `valByteCount` and
`valSingleton` are the varint fields the decoder reads and discards. -/
structure InterEntry : Type where
  keyTyId : Int
  keyByteCount : Nat
  keySingleton : Nat
  keyBytes : List Nat
  valTyId : Int
  valByteCount : Nat
  valSingleton : Nat
  payload : ScalarPayload
  deriving DecidableEq, Repr

/-- Machine-width bounds on every varint field of the entry. -/
def wfEntry (e : InterEntry) : Prop :=
  -(2 ^ 63) ≤ e.keyTyId ∧ e.keyTyId < 2 ^ 63
  ∧ e.keyByteCount < 2 ^ 64 ∧ e.keySingleton < 2 ^ 64
  ∧ e.keyBytes.length < 2 ^ 64
  ∧ -(2 ^ 63) ≤ e.valTyId ∧ e.valTyId < 2 ^ 63
  ∧ e.valByteCount < 2 ^ 64 ∧ e.valSingleton < 2 ^ 64
  ∧ wfPayload e.payload

/-- The wire bytes of one entry: key type name `"string"`, key type id,
byte count, inner singleton, key body, then the value's type name, id,
byte count, inner singleton, and the payload body. -/
def encodeEntry (e : InterEntry) : List Nat :=
  writeSeg (asciiBytes "string") ++ writeInt e.keyTyId
    ++ writeUint e.keyByteCount ++ writeUint e.keySingleton
    ++ writeSeg e.keyBytes
    ++ writeSeg (payloadTypeName e.payload) ++ writeInt e.valTyId
    ++ writeUint e.valByteCount ++ writeUint e.valSingleton
    ++ encodePayload e.payload

/-- The concatenated wire bytes of an entry list. -/
def encodeEntries : List InterEntry → List Nat
  | [] => []
  | e :: es => encodeEntry e ++ encodeEntries es

/-- The buffered entry the decoder produces for a well-formed wire
entry. -/
def decodedEntry (e : InterEntry) : List Nat × SimpleValue :=
  (e.keyBytes, scalarOf e.payload)

/-- The part of an entry the decoder does not discard: its key body and
its typed payload. -/
def visibleEntry (e : InterEntry) : List Nat × ScalarPayload :=
  (e.keyBytes, e.payload)

theorem readBool_writeBool (b : Bool) (rest : List Nat) :
    readBool (writeBool b ++ rest) = .ok (b, rest) := by
  rw [writeBool, readBool, readUint_writeUint (by cases b <;> decide)]
  cases b <;> simp

theorem readFloat_writeFloatBits {bits : Nat} (h : bits < 2 ^ 64)
    (rest : List Nat) : readFloat (writeFloatBits bits ++ rest) = .ok (bits, rest) := by
  rw [writeFloatBits, readFloat, readUint_writeUint (byteRev8_lt bits)]
  simp [byteRev8_byteRev8 h]

theorem decodeInterfaceEntry_encodeEntry (e : InterEntry) (h : wfEntry e)
    (rest : List Nat) :
    decodeInterfaceEntry (encodeEntry e ++ rest) = .ok (decodedEntry e, rest) := by
  obtain ⟨hk1, hk2, hkc, hks, hkb, hv1, hv2, hvc, hvs, hp⟩ := h
  have hA := readSeg_writeSeg (show (asciiBytes "string").length < 2 ^ 64 by decide)
  have hB := readInt_writeInt hk1 hk2
  have hC := readUint_writeUint hkc
  have hD := readUint_writeUint hks
  have hG := readSeg_writeSeg hkb
  have hH := readInt_writeInt hv1 hv2
  have hE := readUint_writeUint hvc
  have hF := readUint_writeUint hvs
  cases hpc : e.payload with
  | strP bs =>
    rw [hpc] at hp
    have hbody := readSeg_writeSeg (show bs.length < 2 ^ 64 from hp)
    simp only [encodeEntry, hpc, payloadTypeName, encodePayload, List.append_assoc,
      decodeInterfaceEntry, hA, hB, hC, hD, hG, hH, hE, hF, hbody,
      decodedEntry, scalarOf, if_pos, eq_self_iff_true, if_true]
  | i64P i =>
    rw [hpc] at hp
    have hbody := readInt_writeInt hp.1 hp.2
    have hVn := readSeg_writeSeg (show (asciiBytes "int64").length < 2 ^ 64 by decide)
    have hne1 := eq_false (show asciiBytes "int64" ≠ asciiBytes "string" by decide)
    simp only [encodeEntry, hpc, payloadTypeName, encodePayload, List.append_assoc,
      decodeInterfaceEntry, hA, hB, hC, hD, hG, hH, hE, hF, hbody, hVn,
      decodedEntry, scalarOf, hne1, if_false, eq_self_iff_true, if_true]
  | u64P n =>
    rw [hpc] at hp
    have hbody := readUint_writeUint (show n < 2 ^ 64 from hp)
    have hVn := readSeg_writeSeg (show (asciiBytes "uint64").length < 2 ^ 64 by decide)
    have hne1 := eq_false (show asciiBytes "uint64" ≠ asciiBytes "string" by decide)
    have hne2 := eq_false (show asciiBytes "uint64" ≠ asciiBytes "int64" by decide)
    simp only [encodeEntry, hpc, payloadTypeName, encodePayload, List.append_assoc,
      decodeInterfaceEntry, hA, hB, hC, hD, hG, hH, hE, hF, hbody, hVn,
      decodedEntry, scalarOf, hne1, hne2, if_false, eq_self_iff_true, if_true]
  | boolP b =>
    have hbody := readBool_writeBool b
    have hVn := readSeg_writeSeg (show (asciiBytes "bool").length < 2 ^ 64 by decide)
    have hne1 := eq_false (show asciiBytes "bool" ≠ asciiBytes "string" by decide)
    have hne2 := eq_false (show asciiBytes "bool" ≠ asciiBytes "int64" by decide)
    have hne3 := eq_false (show asciiBytes "bool" ≠ asciiBytes "uint64" by decide)
    simp only [encodeEntry, hpc, payloadTypeName, encodePayload, List.append_assoc,
      decodeInterfaceEntry, hA, hB, hC, hD, hG, hH, hE, hF, hbody, hVn,
      decodedEntry, scalarOf, hne1, hne2, hne3, if_false, eq_self_iff_true, if_true]
  | f64P bits =>
    rw [hpc] at hp
    have hbody := readFloat_writeFloatBits (show bits < 2 ^ 64 from hp)
    have hVn := readSeg_writeSeg (show (asciiBytes "float64").length < 2 ^ 64 by decide)
    have hne1 := eq_false (show asciiBytes "float64" ≠ asciiBytes "string" by decide)
    have hne2 := eq_false (show asciiBytes "float64" ≠ asciiBytes "int64" by decide)
    have hne3 := eq_false (show asciiBytes "float64" ≠ asciiBytes "uint64" by decide)
    have hne4 := eq_false (show asciiBytes "float64" ≠ asciiBytes "bool" by decide)
    simp only [encodeEntry, hpc, payloadTypeName, encodePayload, List.append_assoc,
      decodeInterfaceEntry, hA, hB, hC, hD, hG, hH, hE, hF, hbody, hVn,
      decodedEntry, scalarOf, hne1, hne2, hne3, hne4, if_false, eq_self_iff_true,
      if_true]

theorem decodeInterfaceEntries_encodeEntries (entries : List InterEntry)
    (h : ∀ e ∈ entries, wfEntry e) (rest : List Nat) :
    decodeInterfaceEntries entries.length (encodeEntries entries ++ rest)
      = .ok (entries.map decodedEntry, rest) := by
  induction entries with
  | nil => simp [decodeInterfaceEntries, encodeEntries]
  | cons e es ih =>
    have he : wfEntry e := h e (List.mem_cons_self e es)
    have hes : ∀ x ∈ es, wfEntry x := fun x hx => h x (List.mem_cons_of_mem e hx)
    simp only [encodeEntries, List.length_cons, List.append_assoc,
      decodeInterfaceEntries, decodeInterfaceEntry_encodeEntry e he,
      ih hes, List.map_cons]

theorem deserializeInterfaceMap_encode (entries : List InterEntry)
    (rest : List Nat) (h : ∀ e ∈ entries, wfEntry e)
    (hlen : entries.length < 2 ^ 64) :
    deserializeInterfaceMap
      (writeUint 0 ++ writeUint entries.length ++ encodeEntries entries ++ rest)
      = .ok (entries.map decodedEntry, rest) := by
  have h0 := readUint_writeUint (show (0 : Nat) < 2 ^ 64 by decide)
  have hl := readUint_writeUint hlen
  simp only [List.append_assoc, deserializeInterfaceMap, h0, hl,
    ne_eq, not_true_eq_false, if_false,
    decodeInterfaceEntries_encodeEntries entries h rest]

/-- **C2.** When the root type id resolves to a map whose key and
element are both `INTERFACE`, `deserialize_struct` takes the eager
path: it reads a singleton marker (erroring if nonzero) and an entry
count, then buffers one entry per count — recording each entry's
concrete type name and producing exactly one typed scalar among
string/int64/uint64/float64/bool — and replays the buffered entries to
the visitor as a map.  An entry whose key's concrete type name is not
`"string"`, or whose value's concrete type name is outside that set,
makes decoding return an error. -/
theorem interface_map_eager_decode :
    (∀ (R : Type)
        (structDec : List (String × Int) → List Nat → Except GobError (R × List Nat))
        (fieldDec : Int → List Nat → Except GobError (R × List Nat))
        (visitMap : List (List Nat × SimpleValue) → R)
        (lookup : Int → Option WireTypeDef) (tid : Int) (input : List Nat),
        lookup tid = some (.mapT interfaceTypeId interfaceTypeId) →
        valueDeserializeStruct structDec fieldDec visitMap lookup tid input
          = match deserializeInterfaceMap input with
            | .error e => .error e
            | .ok (entries, r) => .ok (visitMap entries, r))
    ∧ (∀ (n : Nat) (rest : List Nat), n ≠ 0 → n < 2 ^ 64 →
        deserializeInterfaceMap (writeUint n ++ rest) = .error .badSingleton)
    ∧ (∀ (entries : List InterEntry) (rest : List Nat),
        (∀ e ∈ entries, wfEntry e) → entries.length < 2 ^ 64 →
        deserializeInterfaceMap
          (writeUint 0 ++ writeUint entries.length ++ encodeEntries entries ++ rest)
          = .ok (entries.map decodedEntry, rest))
    ∧ (∀ (name : List Nat) (kid : Int) (kc ks : Nat) (rest : List Nat),
        name ≠ asciiBytes "string" → name.length < 2 ^ 64 →
        -(2 ^ 63) ≤ kid → kid < 2 ^ 63 → kc < 2 ^ 64 → ks < 2 ^ 64 →
        decodeInterfaceEntry
          (writeSeg name ++ writeInt kid ++ writeUint kc ++ writeUint ks ++ rest)
          = .error .unsupportedKeyType)
    ∧ (∀ (keyBytes vname : List Nat) (kid vid : Int) (kc ks vc vs : Nat)
        (rest : List Nat),
        vname ≠ asciiBytes "string" → vname ≠ asciiBytes "int64" →
        vname ≠ asciiBytes "uint64" → vname ≠ asciiBytes "bool" →
        vname ≠ asciiBytes "float64" → vname.length < 2 ^ 64 →
        keyBytes.length < 2 ^ 64 →
        -(2 ^ 63) ≤ kid → kid < 2 ^ 63 → -(2 ^ 63) ≤ vid → vid < 2 ^ 63 →
        kc < 2 ^ 64 → ks < 2 ^ 64 → vc < 2 ^ 64 → vs < 2 ^ 64 →
        decodeInterfaceEntry
          (writeSeg (asciiBytes "string") ++ writeInt kid ++ writeUint kc
            ++ writeUint ks ++ writeSeg keyBytes ++ writeSeg vname ++ writeInt vid
            ++ writeUint vc ++ writeUint vs ++ rest)
          = .error .unsupportedValueType) := by
  refine ⟨?_, ?_, ?_, ?_, ?_⟩
  · intro R structDec fieldDec visitMap lookup tid input h
    rw [valueDeserializeStruct, h]
    simp
  · intro n rest hne h64
    rw [deserializeInterfaceMap, readUint_writeUint h64]
    simp [hne]
  · intro entries rest h hlen
    exact deserializeInterfaceMap_encode entries rest h hlen
  · intro name kid kc ks rest hne hlen hk1 hk2 hc hs
    have hA := readSeg_writeSeg hlen
    have hB := readInt_writeInt hk1 hk2
    have hC := readUint_writeUint hc
    have hD := readUint_writeUint hs
    have hne' := eq_false hne
    simp only [List.append_assoc, decodeInterfaceEntry, hA, hB, hC, hD, hne',
      if_false]
  · intro keyBytes vname kid vid kc ks vc vs rest hn1 hn2 hn3 hn4 hn5 hvlen
      hklen hk1 hk2 hv1 hv2 hc hs hvc hvs
    have hA := readSeg_writeSeg (show (asciiBytes "string").length < 2 ^ 64 by decide)
    have hB := readInt_writeInt hk1 hk2
    have hC := readUint_writeUint hc
    have hD := readUint_writeUint hs
    have hG := readSeg_writeSeg hklen
    have hV := readSeg_writeSeg hvlen
    have hH := readInt_writeInt hv1 hv2
    have hE := readUint_writeUint hvc
    have hF := readUint_writeUint hvs
    have e1 := eq_false hn1
    have e2 := eq_false hn2
    have e3 := eq_false hn3
    have e4 := eq_false hn4
    have e5 := eq_false hn5
    simp only [List.append_assoc, decodeInterfaceEntry, hA, hB, hC, hD, hG, hV,
      hH, hE, hF, e1, e2, e3, e4, e5, if_false, eq_self_iff_true, if_true]

/-- A concrete well-formed interface-map wire entry: key `"uid"`, value
`int64 7`. -/
def sampleEntryA : InterEntry :=
  ⟨1, 5, 0, asciiBytes "uid", 6, 3, 0, .i64P 7⟩

/-- **C2 witness**: the dispatch at a concrete interface-map id, a
nonzero singleton, a one-entry well-formed stream, a non-string key
type, and an out-of-set value type. -/
theorem interface_map_eager_decode_witness :
    valueDeserializeStruct (R := Nat) (fun _ _ => .error .truncated)
        (fun _ _ => .error .truncated) (fun es => es.length)
        (fun t => if t = -65 then some (.mapT interfaceTypeId interfaceTypeId) else none)
        (-65) [0, 0]
      = .ok (0, [])
    ∧ deserializeInterfaceMap (writeUint 3 ++ []) = .error .badSingleton
    ∧ deserializeInterfaceMap
        (writeUint 0 ++ writeUint ([sampleEntryA] : List InterEntry).length
          ++ encodeEntries [sampleEntryA] ++ [])
        = .ok ([sampleEntryA].map decodedEntry, [])
    ∧ decodeInterfaceEntry
        (writeSeg (asciiBytes "uid") ++ writeInt 1 ++ writeUint 0 ++ writeUint 0 ++ [])
        = .error .unsupportedKeyType
    ∧ decodeInterfaceEntry
        (writeSeg (asciiBytes "string") ++ writeInt 1 ++ writeUint 0
          ++ writeUint 0 ++ writeSeg (asciiBytes "k") ++ writeSeg (asciiBytes "int32")
          ++ writeInt 2 ++ writeUint 0 ++ writeUint 0 ++ [])
        = .error .unsupportedValueType :=
  ⟨interface_map_eager_decode.1 Nat (fun _ _ => .error .truncated)
     (fun _ _ => .error .truncated) (fun es => es.length)
     (fun t => if t = -65 then some (.mapT interfaceTypeId interfaceTypeId) else none)
     (-65) [0, 0] (by decide),
   interface_map_eager_decode.2.1 3 [] (by decide) (by decide),
   interface_map_eager_decode.2.2.1 [sampleEntryA] []
     (by
       intro e he
       simp only [List.mem_singleton] at he
       subst he
       unfold wfEntry wfPayload sampleEntryA
       decide)
     (by decide),
   interface_map_eager_decode.2.2.2.1 (asciiBytes "uid") 1 0 0 []
     (by decide) (by decide) (by decide) (by decide) (by decide) (by decide),
   interface_map_eager_decode.2.2.2.2 (asciiBytes "k") (asciiBytes "int32")
     1 2 0 0 0 0 []
     (by decide) (by decide) (by decide) (by decide) (by decide) (by decide)
     (by decide) (by decide) (by decide) (by decide) (by decide) (by decide)
     (by decide) (by decide) (by decide)⟩

/-- **C10.** In the eager `map[interface{}]interface{}` decode path, the
decoded result is independent of the values of each entry's embedded
concrete type id, byte count and inner singleton varints: two wire
streams carrying the same visible entries (key bytes and typed
payloads) but arbitrary well-formed values in those discarded varint
fields decode identically. -/
theorem interface_map_decode_ignores_discarded_varints
    (entries₁ entries₂ : List InterEntry) (rest : List Nat)
    (h₁ : ∀ e ∈ entries₁, wfEntry e) (h₂ : ∀ e ∈ entries₂, wfEntry e)
    (hlen : entries₁.length < 2 ^ 64)
    (hvis : entries₁.map visibleEntry = entries₂.map visibleEntry) :
    deserializeInterfaceMap
      (writeUint 0 ++ writeUint entries₁.length ++ encodeEntries entries₁ ++ rest)
      = deserializeInterfaceMap
      (writeUint 0 ++ writeUint entries₂.length ++ encodeEntries entries₂ ++ rest) := by
  have hlen2 : entries₂.length = entries₁.length := by
    have := congrArg List.length hvis
    simpa using this.symm
  rw [deserializeInterfaceMap_encode entries₁ rest h₁ hlen,
    deserializeInterfaceMap_encode entries₂ rest h₂ (by rw [hlen2]; exact hlen)]
  have hdec : ∀ l : List InterEntry,
      l.map decodedEntry = (l.map visibleEntry).map (fun v => (v.1, scalarOf v.2)) := by
    intro l
    rw [List.map_map]
    rfl
  rw [hdec entries₁, hdec entries₂, hvis]

/-- **C10 witness**: two one-entry streams equal except in the six
discarded varint fields. -/
theorem interface_map_decode_ignores_discarded_varints_witness :
    deserializeInterfaceMap
      (writeUint 0 ++ writeUint ([sampleEntryA] : List InterEntry).length
        ++ encodeEntries [sampleEntryA] ++ [])
      = deserializeInterfaceMap
      (writeUint 0
        ++ writeUint ([(⟨-9, 99, 1, asciiBytes "uid", 2, 0, 4, .i64P 7⟩ : InterEntry)] :
            List InterEntry).length
        ++ encodeEntries [(⟨-9, 99, 1, asciiBytes "uid", 2, 0, 4, .i64P 7⟩ : InterEntry)]
        ++ []) :=
  interface_map_decode_ignores_discarded_varints
    [sampleEntryA] [⟨-9, 99, 1, asciiBytes "uid", 2, 0, 4, .i64P 7⟩] []
    (by
      intro e he
      simp only [List.mem_singleton] at he
      subst he
      unfold wfEntry wfPayload sampleEntryA
      decide)
    (by
      intro e he
      simp only [List.mem_singleton] at he
      subst he
      unfold wfEntry wfPayload
      decide)
    (by decide) (by decide)

/-! ### `ValueDeserializer::deserialize_any`
(src/src/internal/de/value.rs, lines 79–96) and
`MapValueDeserializer` (src/src/internal/de/map_value.rs). -/

/-- A decoded primitive value, as produced by the spec-modelled
primitive field decoder below. -/
inductive DecValue : Type where
  | boolD (b : Bool) : DecValue
  | intD (i : Int) : DecValue
  | uintD (n : Nat) : DecValue
  | floatD (bits : Nat) : DecValue
  | bytesD (bs : List Nat) : DecValue
  | strD (bs : List Nat) : DecValue
  deriving DecidableEq, Repr

/-- Modelled from the spec, §4.3 and §4.6 (the source of
`FieldValueDeserializer` in `internal/de/field_value.rs` is not in the
tree): decode a primitive field body by well-known type id — bool=1,
int=2, uint=3, float=4, bytes=5, string=6. -/
def specFieldDecode (tid : Int) (input : List Nat) :
    Except GobError (DecValue × List Nat) :=
  if tid = 1 then
    match readBool input with
    | .error e => .error e
    | .ok (b, r) => .ok (.boolD b, r)
  else if tid = 2 then
    match readInt input with
    | .error e => .error e
    | .ok (i, r) => .ok (.intD i, r)
  else if tid = 3 then
    match readUint input with
    | .error e => .error e
    | .ok (n, r) => .ok (.uintD n, r)
  else if tid = 4 then
    match readFloat input with
    | .error e => .error e
    | .ok (bits, r) => .ok (.floatD bits, r)
  else if tid = 5 then
    match readSeg input with
    | .error e => .error e
    | .ok (bs, r) => .ok (.bytesD bs, r)
  else if tid = 6 then
    match readSeg input with
    | .error e => .error e
    | .ok (bs, r) => .ok (.strD bs, r)
  else .error .schemaMismatch

/-- `ValueDeserializer::deserialize_any` (value.rs lines 79–96): a
struct definition dispatches to `StructValueDeserializer` (`structDec`)
on the untouched input; every other type id first reads one unsigned
varint, errors with "neither a singleton nor a struct value" if it is
nonzero, and otherwise decodes the body via `FieldValueDeserializer`
(`fieldDec`). -/
def valueDeserializeAny {R : Type}
    (structDec : List (String × Int) → List Nat → Except GobError (R × List Nat))
    (fieldDec : Int → List Nat → Except GobError (R × List Nat))
    (lookup : Int → Option WireTypeDef) (tid : Int) (input : List Nat) :
    Except GobError (R × List Nat) :=
  match lookup tid with
  | some (.structT fields) => structDec fields input
  | _ =>
    match readUint input with
    | .error e => .error e
    | .ok (n, rest) =>
      if n ≠ 0 then .error .notSingleton
      else fieldDec tid rest

/-- **C6 counterexample.** The claim says `deserialize_any` on a
non-struct id "returns an error if and only if that varint is nonzero";
but with the singleton varint `0` and an empty body, the body decode
itself fails, so the call returns an error although the varint was
zero. -/
theorem value_deserialize_any_error_iff_refuted :
    readUint [0] = .ok (0, [])
    ∧ valueDeserializeAny (R := DecValue) (fun _ _ => .error .truncated)
        specFieldDecode (fun _ => none) 2 [0] = .error .truncated := by
  constructor
  · rfl
  · rfl

/-- **C6 (amended).** On decode, if the root type id's definition is a
struct, `deserialize_any` dispatches to the struct decoder without
reading a singleton marker; for every other type id it first reads one
unsigned varint, errors at that check exactly when the varint is
nonzero, and when it is zero proceeds to decode the body as a field
value of that type id (which may itself fail). -/
theorem value_deserialize_any_dispatch :
    (∀ (R : Type)
        (structDec : List (String × Int) → List Nat → Except GobError (R × List Nat))
        (fieldDec : Int → List Nat → Except GobError (R × List Nat))
        (lookup : Int → Option WireTypeDef) (tid : Int) (input : List Nat)
        (fields : List (String × Int)),
        lookup tid = some (.structT fields) →
        valueDeserializeAny structDec fieldDec lookup tid input
          = structDec fields input)
    ∧ (∀ (R : Type)
        (structDec : List (String × Int) → List Nat → Except GobError (R × List Nat))
        (fieldDec : Int → List Nat → Except GobError (R × List Nat))
        (lookup : Int → Option WireTypeDef) (tid : Int) (input : List Nat)
        (n : Nat) (rest : List Nat),
        (∀ fields, lookup tid ≠ some (.structT fields)) →
        readUint input = .ok (n, rest) →
        (n ≠ 0 →
          valueDeserializeAny structDec fieldDec lookup tid input
            = .error .notSingleton)
        ∧ (n = 0 →
          valueDeserializeAny structDec fieldDec lookup tid input
            = fieldDec tid rest)) := by
  constructor
  · intro R structDec fieldDec lookup tid input fields h
    rw [valueDeserializeAny, h]
  · intro R structDec fieldDec lookup tid input n rest hns hread
    have hbody : valueDeserializeAny structDec fieldDec lookup tid input
        = match readUint input with
          | .error e => .error e
          | .ok (n, rest) =>
            if n ≠ 0 then .error .notSingleton else fieldDec tid rest := by
      rw [valueDeserializeAny]
      match hl : lookup tid with
      | none => rfl
      | some (.structT fields) => exact absurd hl (hns fields)
      | some (.mapT key elem) => rfl
      | some .otherT => rfl
    rw [hbody, hread]
    constructor
    · intro hne
      simp [hne]
    · intro h0
      simp [h0]

/-- **C6 witness**: the struct dispatch on untouched input, the nonzero
singleton error, and the zero-singleton body decode, all at concrete
inputs. -/
theorem value_deserialize_any_dispatch_witness :
    valueDeserializeAny (R := DecValue) (fun _ inp => .ok (.boolD true, inp))
        specFieldDecode (fun _ => some (.structT [])) 7 [5]
      = .ok (.boolD true, [5])
    ∧ (((1 : Nat) ≠ 0 →
        valueDeserializeAny (R := DecValue) (fun _ _ => .error .truncated)
          specFieldDecode (fun _ => none) 2 [1] = .error .notSingleton)
      ∧ ((1 : Nat) = 0 →
        valueDeserializeAny (R := DecValue) (fun _ _ => .error .truncated)
          specFieldDecode (fun _ => none) 2 [1] = specFieldDecode 2 []))
    ∧ (((0 : Nat) ≠ 0 →
        valueDeserializeAny (R := DecValue) (fun _ _ => .error .truncated)
          specFieldDecode (fun _ => none) 2 [0, 2] = .error .notSingleton)
      ∧ ((0 : Nat) = 0 →
        valueDeserializeAny (R := DecValue) (fun _ _ => .error .truncated)
          specFieldDecode (fun _ => none) 2 [0, 2] = specFieldDecode 2 [2])) :=
  ⟨value_deserialize_any_dispatch.1 DecValue (fun _ inp => .ok (.boolD true, inp))
     specFieldDecode (fun _ => some (.structT [])) 7 [5] [] (by decide),
   value_deserialize_any_dispatch.2 DecValue (fun _ _ => .error .truncated)
     specFieldDecode (fun _ => none) 2 [1] 1 []
     (fun fields h => Option.noConfusion h) rfl,
   value_deserialize_any_dispatch.2 DecValue (fun _ _ => .error .truncated)
     specFieldDecode (fun _ => none) 2 [0, 2] 0 [2]
     (fun fields h => Option.noConfusion h) rfl⟩

/-- The `MapType` definition: key and element type ids. -/
structure MapTypeDef : Type where
  key : Int
  elem : Int
  deriving DecidableEq, Repr

/-- `MapMapAccess::next_key_seed` (map_value.rs lines 39–49): when
`remaining_count` is zero answer `None`; otherwise decrement it and
decode one key under the map definition's key type id (`fdec` abstracts
`FieldValueDeserializer`). -/
def mapNextKeySeed {κ : Type}
    (fdec : Int → List Nat → Except GobError (κ × List Nat)) (keyTid : Int) :
    Nat → List Nat → Except GobError (Option κ × (Nat × List Nat))
  | 0, input => .ok (none, (0, input))
  | n + 1, input =>
    match fdec keyTid input with
    | .error e => .error e
    | .ok (k, rest) => .ok (some k, (n, rest))

/-- `MapMapAccess::next_value_seed` (map_value.rs lines 51–57): decode
one value under the map definition's element type id. -/
def mapNextValueSeed {ν : Type}
    (gdec : Int → List Nat → Except GobError (ν × List Nat)) (elemTid : Int)
    (input : List Nat) : Except GobError (ν × List Nat) :=
  gdec elemTid input

/-- The serde map-visitor driver over `MapMapAccess`: call
`next_key_seed`; on `None` stop, otherwise call `next_value_seed` and
loop.  (`next_key_seed` at count `n + 1` always hands back count `n`,
which the recursion mirrors structurally.) -/
def mapAccessDrive {κ ν : Type}
    (fdec : Int → List Nat → Except GobError (κ × List Nat))
    (gdec : Int → List Nat → Except GobError (ν × List Nat))
    (mdef : MapTypeDef) :
    Nat → List Nat → Except GobError (List (κ × ν) × List Nat)
  | 0, input =>
    match mapNextKeySeed fdec mdef.key 0 input with
    | .error e => .error e
    | .ok (none, (_, rest)) => .ok ([], rest)
    | .ok (some _, (_, rest)) => .ok ([], rest)
  | n + 1, input =>
    match mapNextKeySeed fdec mdef.key (n + 1) input with
    | .error e => .error e
    | .ok (none, (_, rest)) => .ok ([], rest)
    | .ok (some k, (_, rest)) =>
      match mapNextValueSeed gdec mdef.elem rest with
      | .error e => .error e
      | .ok (v, rest2) =>
        match mapAccessDrive fdec gdec mdef n rest2 with
        | .error e => .error e
        | .ok (ps, rest3) => .ok ((k, v) :: ps, rest3)

/-- `MapValueDeserializer::deserialize_any` (map_value.rs lines
126–132): read the entry count as an unsigned varint, then visit the
map through a `MapMapAccess` with that remaining count. -/
def mapValueDeserializeAny {κ ν : Type}
    (fdec : Int → List Nat → Except GobError (κ × List Nat))
    (gdec : Int → List Nat → Except GobError (ν × List Nat))
    (mdef : MapTypeDef) (input : List Nat) :
    Except GobError (List (κ × ν) × List Nat) :=
  match readUint input with
  | .error e => .error e
  | .ok (len, rest) => mapAccessDrive fdec gdec mdef len rest

/-- Specification-side reference: decode exactly `count` key/value
pairs in wire order, keys with `fk` and values with `fv`. -/
def decodePairs {κ ν : Type}
    (fk : List Nat → Except GobError (κ × List Nat))
    (fv : List Nat → Except GobError (ν × List Nat)) :
    Nat → List Nat → Except GobError (List (κ × ν) × List Nat)
  | 0, input => .ok ([], input)
  | n + 1, input =>
    match fk input with
    | .error e => .error e
    | .ok (k, r1) =>
      match fv r1 with
      | .error e => .error e
      | .ok (v, r2) =>
        match decodePairs fk fv n r2 with
        | .error e => .error e
        | .ok (ps, r3) => .ok ((k, v) :: ps, r3)

theorem mapAccessDrive_eq_decodePairs {κ ν : Type}
    (fdec : Int → List Nat → Except GobError (κ × List Nat))
    (gdec : Int → List Nat → Except GobError (ν × List Nat))
    (mdef : MapTypeDef) :
    ∀ (count : Nat) (input : List Nat),
    mapAccessDrive fdec gdec mdef count input
      = decodePairs (fdec mdef.key) (gdec mdef.elem) count input := by
  intro count
  induction count with
  | zero => intro input; rfl
  | succ n ih =>
    intro input
    rw [mapAccessDrive, decodePairs, mapNextKeySeed]
    simp only [mapNextValueSeed, ih]
    match fdec mdef.key input with
    | .error e => rfl
    | .ok (k, rest) =>
      match gdec mdef.elem rest with
      | .error e => rfl
      | .ok (v, rest2) => rfl

/-- **C7.** `MapValueDeserializer::deserialize_any` reads one unsigned
varint count and delivers exactly `count` key/value pairs to the
visitor in wire order, each key decoded under the map definition's key
type id and each value under its element type id; and `next_key_seed`
answers `None` (consuming nothing) once the count is exhausted. -/
theorem map_value_deserialize_any_delivers_count_pairs :
    (∀ (κ ν : Type)
        (fdec : Int → List Nat → Except GobError (κ × List Nat))
        (gdec : Int → List Nat → Except GobError (ν × List Nat))
        (mdef : MapTypeDef) (input : List Nat),
        mapValueDeserializeAny fdec gdec mdef input
          = match readUint input with
            | .error e => .error e
            | .ok (len, rest) => decodePairs (fdec mdef.key) (gdec mdef.elem) len rest)
    ∧ (∀ (κ : Type) (fdec : Int → List Nat → Except GobError (κ × List Nat))
        (keyTid : Int) (input : List Nat),
        mapNextKeySeed fdec keyTid 0 input = .ok (none, (0, input))) := by
  constructor
  · intro κ ν fdec gdec mdef input
    simp only [mapValueDeserializeAny, mapAccessDrive_eq_decodePairs]
  · intro κ fdec keyTid input
    rfl
